import Mathlib

/-!
Verification of the protocol core of the MCP testing environment:
the simple MCP server (`simple_mcp_server.py`) and the MCP client
simulator (`mcp_client_simulator.py`).

The wire format is one JSON object per line.  We embed JSON values as
the inductive type `JVal` (integer-valued numbers, which is the subset
the protocol core uses), with an encoder mirroring `json.dumps` with its
default separators `", "` / `": "`, and a decoder mirroring `json.loads`
for this subset (objects, arrays, strings with escapes, integers,
booleans, null; the whole input must be consumed up to whitespace).

Python-level behaviours that the server code relies on (dictionary
`.get`, subscripting, the `in` operator, truthiness, `+`/`*` on
heterogeneous values, raised exceptions) are embedded explicitly;
exceptions are modelled with `Except String`, carrying the exception
message, and are caught exactly where the Python code catches them.
-/

set_option maxHeartbeats 1000000

namespace MCP

/-- JSON values (numbers restricted to integers, which is all the
protocol core produces or consumes). Object member lists keep their
textual order; lookup takes the last binding, as `json.loads` does for
duplicate keys. -/
inductive JVal where
  | null : JVal
  | bool : Bool → JVal
  | num : Int → JVal
  | str : String → JVal
  | arr : List JVal → JVal
  | obj : List (String × JVal) → JVal

/-- Decimal digit character. -/
def digitChar (d : Nat) : Char :=
  match d with
  | 0 => '0' | 1 => '1' | 2 => '2' | 3 => '3' | 4 => '4'
  | 5 => '5' | 6 => '6' | 7 => '7' | 8 => '8' | _ => '9'

/-- Hexadecimal digit character (lower case, as `json.dumps` emits). -/
def hexDigit (d : Nat) : Char :=
  match d with
  | 0 => '0' | 1 => '1' | 2 => '2' | 3 => '3' | 4 => '4'
  | 5 => '5' | 6 => '6' | 7 => '7' | 8 => '8' | 9 => '9'
  | 10 => 'a' | 11 => 'b' | 12 => 'c' | 13 => 'd' | 14 => 'e' | _ => 'f'

/-- Decimal digits of `n`, most significant first, prepended to `acc`. -/
def natDigitsAux (n : Nat) (acc : List Char) : List Char :=
  if _h : n < 10 then digitChar n :: acc
  else natDigitsAux (n / 10) (digitChar (n % 10) :: acc)
termination_by n
decreasing_by exact Nat.div_lt_self (by omega) (by omega)

/-- Decimal digits of `n`, no sign, no leading zeros (except for `0`). -/
def natDigits (n : Nat) : List Char := natDigitsAux n []

/-- Characters of the decimal rendering of an integer, as `json.dumps`
prints Python ints. -/
def intChars (n : Int) : List Char :=
  if n < 0 then '-' :: natDigits n.natAbs else natDigits n.natAbs

/-- JSON string escaping for one character: the two structural
characters, the common control-character shorthands, and `\u00XX` for
the remaining control characters. -/
def escChar (c : Char) : List Char :=
  if c = '"' then ['\\', '"']
  else if c = '\\' then ['\\', '\\']
  else if c = '\n' then ['\\', 'n']
  else if c = '\t' then ['\\', 't']
  else if c = '\r' then ['\\', 'r']
  else if c.toNat < 32 then
    ['\\', 'u', '0', '0', hexDigit (c.toNat / 16), hexDigit (c.toNat % 16)]
  else [c]

/-- JSON string escaping of a character list. -/
def escList : List Char → List Char
  | [] => []
  | c :: cs => escChar c ++ escList cs

mutual

/-- Characters of the JSON encoding of a value, mirroring `json.dumps`
with its default item separator `", "` and key separator `": "`. -/
def encVal : JVal → List Char
  | .null => "null".data
  | .bool true => "true".data
  | .bool false => "false".data
  | .num n => intChars n
  | .str s => '"' :: (escList s.data ++ ['"'])
  | .arr [] => ['[', ']']
  | .arr (x :: xs) => '[' :: (encVal x ++ encElems xs ++ [']'])
  | .obj [] => ['{', '}']
  | .obj (m :: ms) => '{' :: (encMem m ++ encMems ms ++ ['}'])

/-- Encoding of the remaining array elements, each preceded by `", "`. -/
def encElems : List JVal → List Char
  | [] => []
  | x :: xs => ',' :: ' ' :: (encVal x ++ encElems xs)

/-- Encoding of one object member, `"key": value`. -/
def encMem : String × JVal → List Char
  | (k, v) => '"' :: (escList k.data ++ '"' :: ':' :: ' ' :: encVal v)

/-- Encoding of the remaining object members, each preceded by `", "`. -/
def encMems : List (String × JVal) → List Char
  | [] => []
  | m :: ms => ',' :: ' ' :: (encMem m ++ encMems ms)

end

/-- `json.dumps` of a value, as one line of text. -/
def jsonEncode (v : JVal) : String := ⟨encVal v⟩

/-- JSON whitespace. -/
def isWs (c : Char) : Bool := c = ' ' || c = '\t' || c = '\n' || c = '\r'

/-- Drop leading whitespace. -/
def skipWs : List Char → List Char
  | [] => []
  | c :: cs => if isWs c then skipWs cs else c :: cs

/-- Match an exact sequence of characters, returning the remainder. -/
def stripPfx : List Char → List Char → Option (List Char)
  | [], cs => some cs
  | p :: ps, c :: cs => if c = p then stripPfx ps cs else none
  | _ :: _, [] => none

/-- Value of a hexadecimal digit character. -/
def hexVal? (c : Char) : Option Nat :=
  if '0' ≤ c ∧ c ≤ '9' then some (c.toNat - 48)
  else if 'a' ≤ c ∧ c ≤ 'f' then some (c.toNat - 87)
  else if 'A' ≤ c ∧ c ≤ 'F' then some (c.toNat - 55)
  else none

/-- Single-character escape shorthands accepted after a backslash. -/
def unescape? (e : Char) : Option Char :=
  if e = '"' then some '"'
  else if e = '\\' then some '\\'
  else if e = '/' then some '/'
  else if e = 'n' then some '\n'
  else if e = 't' then some '\t'
  else if e = 'r' then some '\r'
  else if e = 'b' then some (Char.ofNat 8)
  else if e = 'f' then some (Char.ofNat 12)
  else none

/-- Parse the body of a JSON string (the opening quote already
consumed), returning the decoded characters and the remainder after the
closing quote. -/
def parseStringBody : List Char → Option (List Char × List Char)
  | [] => none
  | c :: r =>
    if c = '"' then some ([], r)
    else if c = '\\' then
      match r with
      | [] => none
      | e :: r' =>
        if e = 'u' then
          match r' with
          | h3 :: h2 :: h1 :: h0 :: r'' =>
            match hexVal? h3, hexVal? h2, hexVal? h1, hexVal? h0 with
            | some a, some b, some c1, some d =>
              let n := ((a * 16 + b) * 16 + c1) * 16 + d
              if Nat.isValidChar n then
                match parseStringBody r'' with
                | some (cs, rest) => some (Char.ofNat n :: cs, rest)
                | none => none
              else none
            | _, _, _, _ => none
          | _ => none
        else
          match unescape? e with
          | some u =>
            match parseStringBody r' with
            | some (cs, rest) => some (u :: cs, rest)
            | none => none
          | none => none
    else
      match parseStringBody r with
      | some (cs, rest) => some (c :: cs, rest)
      | none => none

/-- Consume a maximal run of decimal digits, folding them onto `a`. -/
def parseDigitsA (a : Nat) : List Char → Nat × List Char
  | [] => (a, [])
  | c :: cs =>
    if c.isDigit then parseDigitsA (10 * a + (c.toNat - 48)) cs else (a, c :: cs)

mutual

/-- Parse one JSON value after optional leading whitespace; `fuel`
bounds the nesting of arrays and objects. -/
def parseVal : Nat → List Char → Option (JVal × List Char)
  | 0, _ => none
  | f + 1, cs =>
    match skipWs cs with
    | [] => none
    | c :: r =>
      if c = 'n' then
        match stripPfx ['u', 'l', 'l'] r with
        | some r' => some (.null, r')
        | none => none
      else if c = 't' then
        match stripPfx ['r', 'u', 'e'] r with
        | some r' => some (.bool true, r')
        | none => none
      else if c = 'f' then
        match stripPfx ['a', 'l', 's', 'e'] r with
        | some r' => some (.bool false, r')
        | none => none
      else if c = '"' then
        match parseStringBody r with
        | some (cs', rest) => some (.str ⟨cs'⟩, rest)
        | none => none
      else if c = '-' then
        match r with
        | [] => none
        | c' :: r' =>
          if c'.isDigit then
            let p := parseDigitsA (c'.toNat - 48) r'
            some (.num (-(p.1 : Int)), p.2)
          else none
      else if c = '[' then
        match skipWs r with
        | [] => none
        | c' :: r' =>
          if c' = ']' then some (.arr [], r')
          else
            match parseElems f (c' :: r') with
            | some (xs, rest) => some (.arr xs, rest)
            | none => none
      else if c = '{' then
        match skipWs r with
        | [] => none
        | c' :: r' =>
          if c' = '}' then some (.obj [], r')
          else
            match parseMems f (c' :: r') with
            | some (ms, rest) => some (.obj ms, rest)
            | none => none
      else if c.isDigit then
        let p := parseDigitsA (c.toNat - 48) r
        some (.num (p.1 : Int), p.2)
      else none

/-- Parse the elements of a non-empty JSON array up to and including the
closing bracket. -/
def parseElems : Nat → List Char → Option (List JVal × List Char)
  | 0, _ => none
  | f + 1, cs =>
    match parseVal f cs with
    | some (v, r) =>
      match skipWs r with
      | ',' :: r' =>
        match parseElems f r' with
        | some (xs, rest) => some (v :: xs, rest)
        | none => none
      | ']' :: r' => some ([v], r')
      | _ => none
    | none => none

/-- Parse the members of a non-empty JSON object up to and including the
closing brace. -/
def parseMems : Nat → List Char → Option (List (String × JVal) × List Char)
  | 0, _ => none
  | f + 1, cs =>
    match skipWs cs with
    | '"' :: r =>
      match parseStringBody r with
      | some (kcs, r1) =>
        match skipWs r1 with
        | ':' :: r2 =>
          match parseVal f r2 with
          | some (v, r3) =>
            match skipWs r3 with
            | ',' :: r4 =>
              match parseMems f r4 with
              | some (ms, rest) => some ((⟨kcs⟩, v) :: ms, rest)
              | none => none
            | '}' :: r4 => some ([(⟨kcs⟩, v)], r4)
            | _ => none
          | none => none
        | _ => none
      | none => none
    | _ => none

end

/-- `json.loads` of one line: parse a value and require that nothing but
whitespace remains. -/
def jsonParse (s : String) : Option JVal :=
  match parseVal (s.length + 1) s.data with
  | some (v, rest) => if skipWs rest = [] then some v else none
  | none => none

/-- Number of decimal digits `natDigits` emits. -/
def digitCount (n : Nat) : Nat :=
  if _h : n < 10 then 1 else digitCount (n / 10) + 1
termination_by n
decreasing_by exact Nat.div_lt_self (by omega) (by omega)

/-- The list does not begin with a decimal digit (so a maximal digit run
ending just before it really ends there). -/
def noDigitHead : List Char → Prop
  | [] => True
  | c :: _ => c.isDigit = false

mutual

/-- Fuel needed by `parseVal` on the encoding of `v`. -/
def jsize : JVal → Nat
  | .arr xs => 1 + ejsize xs
  | .obj ms => 1 + ojsize ms
  | _ => 1

/-- Fuel needed by `parseElems` on encoded array elements. -/
def ejsize : List JVal → Nat
  | [] => 0
  | x :: xs => 1 + jsize x + ejsize xs

/-- Fuel needed by `parseMems` on encoded object members. -/
def ojsize : List (String × JVal) → Nat
  | [] => 0
  | (_, v) :: ms => 1 + jsize v + ojsize ms

end

/-! ### Python-level semantics

The server manipulates decoded JSON values with Python operations.  We
embed each operation the server uses; an operation that can raise
returns `Except String`, carrying the exception text, so that
`handle_request`'s `except` clauses can be modelled exactly where the
Python code catches. -/

/-- A single-quote character, kept out of string literals. -/
def sq : String := ⟨[Char.ofNat 39]⟩

/-- Lookup in an object's member list; a later duplicate key wins, which
is how `json.loads` builds a Python dict from duplicate keys. -/
def objLookup (kvs : List (String × JVal)) (k : String) : Option JVal :=
  match kvs with
  | [] => none
  | (k', v) :: rest =>
    match objLookup rest k with
    | some w => some w
    | none => if k' = k then some v else none

/-- Key membership in an object's member list. -/
def containsKey (kvs : List (String × JVal)) (k : String) : Bool :=
  kvs.any (fun p => p.1 = k)

/-- The member list of an object value (else empty). -/
def objFields : JVal → List (String × JVal)
  | .obj kvs => kvs
  | _ => []

/-- Python truthiness of a JSON value. -/
def pyTruthy : JVal → Bool
  | .null => false
  | .bool b => b
  | .num n => decide (n ≠ 0)
  | .str s => !s.data.isEmpty
  | .arr xs => !xs.isEmpty
  | .obj kvs => !kvs.isEmpty

/-- The Python type name of a JSON value, as it appears in exception
messages. -/
def pyTypeName : JVal → String
  | .null => "NoneType"
  | .bool _ => "bool"
  | .num _ => "int"
  | .str _ => "str"
  | .arr _ => "list"
  | .obj _ => "dict"

mutual

/-- Python `repr()` of a JSON value (nested strings single-quoted). -/
def pyReprOf : JVal → String
  | .null => "None"
  | .bool true => "True"
  | .bool false => "False"
  | .num n => ⟨intChars n⟩
  | .str s => sq ++ s ++ sq
  | .arr [] => "[]"
  | .arr (x :: xs) => "[" ++ pyReprOf x ++ pyReprElems xs ++ "]"
  | .obj [] => "\x7b\x7d"
  | .obj (m :: ms) => "\x7b" ++ pyReprMem m ++ pyReprMems ms ++ "\x7d"

/-- Remaining list elements of a `repr()`. -/
def pyReprElems : List JVal → String
  | [] => ""
  | x :: xs => ", " ++ pyReprOf x ++ pyReprElems xs

/-- One dict entry of a `repr()`. -/
def pyReprMem : String × JVal → String
  | (k, v) => sq ++ k ++ sq ++ ": " ++ pyReprOf v

/-- Remaining dict entries of a `repr()`. -/
def pyReprMems : List (String × JVal) → String
  | [] => ""
  | m :: ms => ", " ++ pyReprMem m ++ pyReprMems ms

end

/-- Python `str()` of a JSON value, as interpolated by f-strings. -/
def pyStrOf : JVal → String
  | .str s => s
  | v => pyReprOf v

/-- Python `container.get(key, default)`: `AttributeError` unless the
container is a dict. -/
def pyGetD (c : JVal) (k : String) (default : JVal) : Except String JVal :=
  match c with
  | .obj kvs => .ok ((objLookup kvs k).getD default)
  | v => .error (sq ++ pyTypeName v ++ sq ++ " object has no attribute "
      ++ sq ++ "get" ++ sq)

/-- Python `container[key]` with a string key: dict lookup
(`KeyError` when absent, whose `str()` is the quoted key), `TypeError`
on any other type. -/
def pySubscript (c : JVal) (k : String) : Except String JVal :=
  match c with
  | .obj kvs =>
    match objLookup kvs k with
    | some v => .ok v
    | none => .error (sq ++ k ++ sq)
  | .str _ => .error "string indices must be integers"
  | .arr _ => .error "list indices must be integers or slices, not str"
  | v => .error (sq ++ pyTypeName v ++ sq ++ " object is not subscriptable")

/-- Whether the first list is a prefix of the second. -/
def listStartsWith : List Char → List Char → Bool
  | p :: ps, c :: cs => p = c && listStartsWith ps cs
  | [], _ => true
  | _, [] => false

/-- Whether the first list occurs contiguously inside the second
(Python's substring `in`). -/
def listIsSub (needle : List Char) : List Char → Bool
  | [] => needle.isEmpty
  | c :: cs => listStartsWith needle (c :: cs) || listIsSub needle cs

/-- Python `key in container` with a string key: key membership for a
dict, substring test for a string, element equality for a list,
`TypeError` otherwise. -/
def pyContains (c : JVal) (k : String) : Except String Bool :=
  match c with
  | .obj kvs => .ok (containsKey kvs k)
  | .str s => .ok (listIsSub k.data s.data)
  | .arr xs => .ok (xs.any (fun x => match x with
      | .str t => t = k
      | _ => false))
  | v => .error ("argument of type " ++ sq ++ pyTypeName v ++ sq
      ++ " is not iterable")

/-- Python `d[x]`/`x in d` against a dict with string keys, combined:
`ok none` when not a member, `ok (some v)` when `d[x] = v`, and
`TypeError` when `x` is unhashable. -/
def regLookup (reg : List (String × JVal)) (x : JVal) :
    Except String (Option JVal) :=
  match x with
  | .str s => .ok (objLookup reg s)
  | .arr _ => .error ("unhashable type: " ++ sq ++ "list" ++ sq)
  | .obj _ => .error ("unhashable type: " ++ sq ++ "dict" ++ sq)
  | _ => .ok none

/-- The integer value of a Python number-like operand (bools count as
ints), if any. -/
def pyToInt? : JVal → Option Int
  | .num n => some n
  | .bool true => some 1
  | .bool false => some 0
  | _ => none

/-- Python `a + b`: numeric addition (bools as ints), string and list
concatenation; everything else raises `TypeError`. -/
def pyAdd (a b : JVal) : Except String JVal :=
  match pyToInt? a, pyToInt? b with
  | some x, some y => .ok (.num (x + y))
  | _, _ =>
    match a, b with
    | .str s, .str t => .ok (.str (s ++ t))
    | .arr xs, .arr ys => .ok (.arr (xs ++ ys))
    | .str _, _ => .error ("can only concatenate str (not \""
        ++ pyTypeName b ++ "\") to str")
    | .arr _, _ => .error ("can only concatenate list (not \""
        ++ pyTypeName b ++ "\") to list")
    | _, _ => .error ("unsupported operand type(s) for +: " ++ sq
        ++ pyTypeName a ++ sq ++ " and " ++ sq ++ pyTypeName b ++ sq)

/-- `n` copies of a list, Python sequence repetition (empty when
`n ≤ 0`). -/
def listRepeat {α : Type} (xs : List α) : Nat → List α
  | 0 => []
  | n + 1 => xs ++ listRepeat xs n

/-- Python `a * b`: numeric multiplication (bools as ints), sequence
repetition for string/list with an int; everything else raises
`TypeError`. -/
def pyMul (a b : JVal) : Except String JVal :=
  match a, b with
  | .str s, b =>
    match pyToInt? b with
    | some n => .ok (.str ⟨listRepeat s.data n.toNat⟩)
    | none => .error ("can" ++ sq ++ "t multiply sequence by non-int of type "
        ++ sq ++ pyTypeName b ++ sq)
  | .arr xs, b =>
    match pyToInt? b with
    | some n => .ok (.arr (listRepeat xs n.toNat))
    | none => .error ("can" ++ sq ++ "t multiply sequence by non-int of type "
        ++ sq ++ pyTypeName b ++ sq)
  | a, .str s =>
    match pyToInt? a with
    | some n => .ok (.str ⟨listRepeat s.data n.toNat⟩)
    | none => .error ("can" ++ sq ++ "t multiply sequence by non-int of type "
        ++ sq ++ pyTypeName a ++ sq)
  | a, .arr ys =>
    match pyToInt? a with
    | some n => .ok (.arr (listRepeat ys n.toNat))
    | none => .error ("can" ++ sq ++ "t multiply sequence by non-int of type "
        ++ sq ++ pyTypeName a ++ sq)
  | a, b =>
    match pyToInt? a, pyToInt? b with
    | some x, some y => .ok (.num (x * y))
    | _, _ => .error ("unsupported operand type(s) for *: " ++ sq
        ++ pyTypeName a ++ sq ++ " and " ++ sq ++ pyTypeName b ++ sq)

/-- Python `x[::-1]`: sequence reversal for strings and lists,
`TypeError` otherwise. -/
def pyReverse (x : JVal) : Except String JVal :=
  match x with
  | .str s => .ok (.str ⟨s.data.reverse⟩)
  | .arr xs => .ok (.arr xs.reverse)
  | v => .error (sq ++ pyTypeName v ++ sq ++ " object is not subscriptable")

/-- Python `v == "s"` for a JSON value against a string literal. -/
def isStrEq (v : JVal) (s : String) : Bool :=
  match v with
  | .str t => t = s
  | _ => false

/-! ### The server (`simple_mcp_server.py`)

Each handler builds the response object whose `json.dumps` the Python
method returns; serialisation is factored out to `handle_request`, which
is observationally identical.  `Except` failure is a raised exception
with Python's message. -/

/-- `self.capabilities` of `SimpleMCPServer.__init__`. -/
def serverCapabilities : JVal :=
  .obj [("resources", .obj [("list", .obj []), ("get", .obj [])]),
        ("prompts", .obj [("list", .obj []), ("execute", .obj [])]),
        ("tools", .obj [("list", .obj []), ("execute", .obj [])])]

/-- `self.resources` of `SimpleMCPServer.__init__`. -/
def serverResources : List (String × JVal) :=
  [("sample_text", .obj [("type", .str "text/plain"),
      ("content", .str "This is a sample text resource.")]),
   ("sample_image", .obj [("type", .str "image/png"),
      ("content", .str "base64encodedimagedatawouldgohere")])]

/-- `self.prompts` of `SimpleMCPServer.__init__`. -/
def serverPrompts : List (String × JVal) :=
  [("echo", .obj [("description", .str "Echo the input text"),
      ("args", .obj [("text", .obj [("type", .str "string"),
          ("description", .str "Text to echo")])])]),
   ("reverse", .obj [("description", .str "Reverse the input text"),
      ("args", .obj [("text", .obj [("type", .str "string"),
          ("description", .str "Text to reverse")])])])]

/-- `self.tools` of `SimpleMCPServer.__init__`. -/
def serverTools : List (String × JVal) :=
  [("add", .obj [("description", .str "Add two numbers"),
      ("args", .obj [("a", .obj [("type", .str "number"),
          ("description", .str "First number")]),
        ("b", .obj [("type", .str "number"),
          ("description", .str "Second number")])])]),
   ("multiply", .obj [("description", .str "Multiply two numbers"),
      ("args", .obj [("a", .obj [("type", .str "number"),
          ("description", .str "First number")]),
        ("b", .obj [("type", .str "number"),
          ("description", .str "Second number")])])])]

/-- A success response object `{"jsonrpc": "2.0", "id": ..,
"result": ..}`. -/
def mkResult (id result : JVal) : JVal :=
  .obj [("jsonrpc", .str "2.0"), ("id", id), ("result", result)]

/-- `create_error_response`: `{"jsonrpc": "2.0", "id": ..,
"error": {"code": .., "message": ..}}`. -/
def create_error_response (id : JVal) (code : Int) (message : String) : JVal :=
  .obj [("jsonrpc", .str "2.0"), ("id", id),
        ("error", .obj [("code", .num code), ("message", .str message)])]

/-- Field read on a constant registry entry (every read the handlers
perform on the fixed registries is present, so the `null` default is
unreachable). -/
def jGet (v : JVal) (k : String) : JVal :=
  match v with
  | .obj kvs => (objLookup kvs k).getD .null
  | _ => .null

/-- The declared argument names of a handler's arg-spec dict, in
insertion order — what `for arg_name in tool["args"]` iterates. -/
def argNamesOf (spec : JVal) : List String :=
  match spec with
  | .obj kvs => kvs.map (fun p => p.1)
  | _ => []

/-- The validation loop `for arg_name in spec: if arg_name not in args:`
— the first declared argument not present in `args`, with Python's
`in` semantics (which may raise on a non-iterable `args`). -/
def findMissingArg (argNames : List String) (args : JVal) :
    Except String (Option String) :=
  match argNames with
  | [] => .ok none
  | a :: rest => do
    let present ← pyContains args a
    if present then findMissingArg rest args else .ok (some a)

/-- The initialize handler (its prints read `params` and may raise). -/
def handle_initialize (id params : JVal) : Except String JVal := do
  let _ ← pyGetD params "capabilities" (.obj [])
  let clientInfo ← pyGetD params "clientInfo" (.obj [])
  let _ ← pyGetD clientInfo "name" (.str "Unknown")
  let _ ← pyGetD clientInfo "version" (.str "Unknown")
  pure (mkResult id (.obj [("capabilities", serverCapabilities),
    ("serverInfo", .obj [("name", .str "Simple MCP Server"),
      ("version", .str "1.0.0")])]))

/-- `handle_shutdown` returns an empty result; the cleared `running`
flag is threaded by `dispatch`. -/
def handle_shutdown (id _params : JVal) : JVal := mkResult id (.obj [])

/-- `handle_resources_list`. -/
def handle_resources_list (id _params : JVal) : JVal :=
  mkResult id (.obj [("resources", .arr (serverResources.map (fun p =>
    .obj [("uri", .str p.1), ("type", jGet p.2 "type")])))])

/-- `handle_resources_get`. -/
def handle_resources_get (id params : JVal) : Except String JVal := do
  let uri ← pyGetD params "uri" .null
  if pyTruthy uri = false then
    pure (create_error_response id (-32602) ("Resource not found: "
      ++ pyStrOf uri))
  else do
    let found ← regLookup serverResources uri
    match found with
    | none => pure (create_error_response id (-32602) ("Resource not found: "
        ++ pyStrOf uri))
    | some resource =>
      pure (mkResult id (.obj [("uri", uri), ("type", jGet resource "type"),
        ("content", jGet resource "content")]))

/-- `handle_prompts_list`. -/
def handle_prompts_list (id _params : JVal) : JVal :=
  mkResult id (.obj [("prompts", .arr (serverPrompts.map (fun p =>
    .obj [("id", .str p.1), ("description", jGet p.2 "description"),
      ("args", jGet p.2 "args")])))])

/-- `handle_prompts_execute`. -/
def handle_prompts_execute (id params : JVal) : Except String JVal := do
  let prompt_id ← pyGetD params "id" .null
  let args ← pyGetD params "args" (.obj [])
  if pyTruthy prompt_id = false then
    pure (create_error_response id (-32602) ("Prompt not found: "
      ++ pyStrOf prompt_id))
  else do
    let found ← regLookup serverPrompts prompt_id
    match found with
    | none => pure (create_error_response id (-32602) ("Prompt not found: "
        ++ pyStrOf prompt_id))
    | some prompt => do
      let missing ← findMissingArg (argNamesOf (jGet prompt "args")) args
      match missing with
      | some name => pure (create_error_response id (-32602)
          ("Missing argument: " ++ name))
      | none => do
        let result ←
          if isStrEq prompt_id "echo" then pySubscript args "text"
          else if isStrEq prompt_id "reverse" then do
            let t ← pySubscript args "text"
            pyReverse t
          else pure (.str "Unknown prompt")
        pure (mkResult id (.obj [("result", result)]))

/-- `handle_tools_list`. -/
def handle_tools_list (id _params : JVal) : JVal :=
  mkResult id (.obj [("tools", .arr (serverTools.map (fun p =>
    .obj [("id", .str p.1), ("description", jGet p.2 "description"),
      ("args", jGet p.2 "args")])))])

/-- `handle_tools_execute`. -/
def handle_tools_execute (id params : JVal) : Except String JVal := do
  let tool_id ← pyGetD params "id" .null
  let args ← pyGetD params "args" (.obj [])
  if pyTruthy tool_id = false then
    pure (create_error_response id (-32602) ("Tool not found: "
      ++ pyStrOf tool_id))
  else do
    let found ← regLookup serverTools tool_id
    match found with
    | none => pure (create_error_response id (-32602) ("Tool not found: "
        ++ pyStrOf tool_id))
    | some tool => do
      let missing ← findMissingArg (argNamesOf (jGet tool "args")) args
      match missing with
      | some name => pure (create_error_response id (-32602)
          ("Missing argument: " ++ name))
      | none => do
        let result ←
          if isStrEq tool_id "add" then do
            let a ← pySubscript args "a"
            let b ← pySubscript args "b"
            pyAdd a b
          else if isStrEq tool_id "multiply" then do
            let a ← pySubscript args "a"
            let b ← pySubscript args "b"
            pyMul a b
          else pure (.str "Unknown tool")
        pure (mkResult id (.obj [("result", result)]))

/-- The method-dispatch chain of `handle_request`'s `try` block, after
`json.loads` succeeded.  The Bool result is the `running` flag after the
call (only the `shutdown` branch clears it, and only after
`request["id"]` was evaluated without raising, matching the Python
evaluation order). -/
def dispatch (request : JVal) : Except String (Bool × JVal) := do
  let hasMethod ← pyContains request "method"
  if hasMethod = false then do
    let i ← pyGetD request "id" .null
    pure (true, create_error_response i (-32600) "Invalid Request")
  else do
    let method ← pySubscript request "method"
    let params ← pyGetD request "params" (.obj [])
    if isStrEq method "initialize" then do
      let i ← pySubscript request "id"
      let r ← handle_initialize i params
      pure (true, r)
    else if isStrEq method "shutdown" then do
      let i ← pySubscript request "id"
      pure (false, handle_shutdown i params)
    else if isStrEq method "resources/list" then do
      let i ← pySubscript request "id"
      pure (true, handle_resources_list i params)
    else if isStrEq method "resources/get" then do
      let i ← pySubscript request "id"
      let r ← handle_resources_get i params
      pure (true, r)
    else if isStrEq method "prompts/list" then do
      let i ← pySubscript request "id"
      pure (true, handle_prompts_list i params)
    else if isStrEq method "prompts/execute" then do
      let i ← pySubscript request "id"
      let r ← handle_prompts_execute i params
      pure (true, r)
    else if isStrEq method "tools/list" then do
      let i ← pySubscript request "id"
      pure (true, handle_tools_list i params)
    else if isStrEq method "tools/execute" then do
      let i ← pySubscript request "id"
      let r ← handle_tools_execute i params
      pure (true, r)
    else do
      let i ← pySubscript request "id"
      pure (true, create_error_response i (-32601) ("Method not found: "
        ++ pyStrOf method))

/-- `handle_request`, at the level of response objects: parse the line,
dispatch, and catch — `json.JSONDecodeError` as a `-32700` response with
null id, any other exception as a `-32603` response with null id.
Returns the response object and the `running` flag after the call. -/
def handle_request_core (request_str : String) : Bool × JVal :=
  match jsonParse request_str with
  | none => (true, create_error_response .null (-32700) "Parse error")
  | some request =>
    match dispatch request with
    | .ok br => br
    | .error msg =>
      (true, create_error_response .null (-32603) ("Internal error: " ++ msg))

/-- `handle_request` as the Python method behaves at the wire: a JSON
response string for every input string. -/
def handle_request (request_str : String) : Bool × String :=
  ((handle_request_core request_str).1,
    jsonEncode (handle_request_core request_str).2)

/-- The server's `run` loop over a list of input lines (the stream until
end-of-file): while `running`, read a line, handle it, emit the
response; stop without reading further once `running` is cleared. -/
def runLoop (running : Bool) : List String → List String
  | [] => []
  | l :: ls =>
    if running then
      (handle_request l).2 :: runLoop (handle_request l).1 ls
    else []

/-- Whether a method value names a registered handler of the dispatch
chain. -/
def isRegisteredMethod (m : JVal) : Bool :=
  isStrEq m "initialize" || isStrEq m "shutdown" ||
  isStrEq m "resources/list" || isStrEq m "resources/get" ||
  isStrEq m "prompts/list" || isStrEq m "prompts/execute" ||
  isStrEq m "tools/list" || isStrEq m "tools/execute"

/-! ### The client (`mcp_client_simulator.py`) -/

/-- The request object every client call builds:
`{"jsonrpc": "2.0", "id": .., "method": .., "params": ..}`. -/
def mkRequest (i : JVal) (m : String) (p : JVal) : JVal :=
  .obj [("jsonrpc", .str "2.0"), ("id", i), ("method", .str m), ("params", p)]

/-- `next_id`: increment `self.request_id` and return it; the pair is
(returned id, state after). -/
def next_id (request_id : Nat) : Nat × Nat :=
  (request_id + 1, request_id + 1)

/-- The `request_id` state after `n` calls to `next_id`, starting from
the freshly initialised `0`. -/
def idAfterCalls : Nat → Nat
  | 0 => 0
  | n + 1 => (next_id (idAfterCalls n)).2

/-- The id returned by call number `n+1` (zero-indexed `n`) on a fresh
session. -/
def nthAllocatedId (n : Nat) : Nat := (next_id (idAfterCalls n)).1

/-- `send_request`: write the encoded request, then return whatever the
next received line decodes to — `none` for a closed stream or an
undecodable line, otherwise the decoded object, with no inspection of
its id. -/
def send_request (_request : JVal) (received : Option String) : Option JVal :=
  match received with
  | none => none
  | some line => jsonParse line

/-- One synchronous exchange against the embedded server: the encoded
request is the line the server reads, and the server's response line is
the line the client reads back. -/
def exchange (request : JVal) : Option JVal :=
  send_request request (some (handle_request (jsonEncode request)).2)

/-! ### Response-shape accessors -/

/-- The `id` member of a response object. -/
def respId (r : JVal) : Option JVal := objLookup (objFields r) "id"

/-- The error code of a response object, when it is an error
response. -/
def respErrorCode (r : JVal) : Option Int :=
  match objLookup (objFields r) "error" with
  | some (.obj e) =>
    match objLookup e "code" with
    | some (.num c) => some c
    | _ => none
  | _ => none

/-- Whether the response object carries a `result` member. -/
def hasResult (r : JVal) : Bool := containsKey (objFields r) "result"

/-- Whether the response object carries an `error` member. -/
def hasError (r : JVal) : Bool := containsKey (objFields r) "error"

/-- A value produced by one of the two response constructors. -/
def IsResp (r : JVal) : Prop :=
  (∃ i v, r = mkResult i v) ∨ (∃ i c m, r = create_error_response i c m)

/-! ### Constructor equations for the mutually recursive functions -/

@[simp] theorem encVal_null : encVal .null = ['n', 'u', 'l', 'l'] := by
  rw [encVal.eq_def]

@[simp] theorem encVal_true : encVal (.bool true) = ['t', 'r', 'u', 'e'] := by
  rw [encVal.eq_def]

@[simp] theorem encVal_false : encVal (.bool false) = ['f', 'a', 'l', 's', 'e'] := by
  rw [encVal.eq_def]

@[simp] theorem encVal_num (n : Int) : encVal (.num n) = intChars n := by
  rw [encVal.eq_def]

@[simp] theorem encVal_str (s : String) :
    encVal (.str s) = '"' :: (escList s.data ++ ['"']) := by
  rw [encVal.eq_def]

@[simp] theorem encVal_arr_nil : encVal (.arr []) = ['[', ']'] := by
  rw [encVal.eq_def]

@[simp] theorem encVal_arr_cons (x : JVal) (xs : List JVal) :
    encVal (.arr (x :: xs)) = '[' :: (encVal x ++ encElems xs ++ [']']) := by
  rw [encVal.eq_def]

@[simp] theorem encVal_obj_nil : encVal (.obj []) = ['{', '}'] := by
  rw [encVal.eq_def]

@[simp] theorem encVal_obj_cons (m : String × JVal) (ms : List (String × JVal)) :
    encVal (.obj (m :: ms)) = '{' :: (encMem m ++ encMems ms ++ ['}']) := by
  rw [encVal.eq_def]

@[simp] theorem encElems_nil : encElems [] = [] := by rw [encElems.eq_def]

@[simp] theorem encElems_cons (x : JVal) (xs : List JVal) :
    encElems (x :: xs) = ',' :: ' ' :: (encVal x ++ encElems xs) := by
  rw [encElems.eq_def]

@[simp] theorem encMem_eq (k : String) (v : JVal) :
    encMem (k, v) = '"' :: (escList k.data ++ '"' :: ':' :: ' ' :: encVal v) := by
  rw [encMem.eq_def]

@[simp] theorem encMems_nil : encMems [] = [] := by rw [encMems.eq_def]

@[simp] theorem encMems_cons (m : String × JVal) (ms : List (String × JVal)) :
    encMems (m :: ms) = ',' :: ' ' :: (encMem m ++ encMems ms) := by
  rw [encMems.eq_def]

/-! ### Character-level facts -/

theorem digitChar_isDigit : ∀ d, d < 10 → (digitChar d).isDigit = true := by decide

theorem digitChar_toNat : ∀ d, d < 10 → (digitChar d).toNat = 48 + d := by decide

theorem hexVal_hexDigit : ∀ m, m < 16 → hexVal? (hexDigit m) = some m := by decide

theorem isDigit_ne {c : Char} (h : c.isDigit = true) {x : Char}
    (hx : x.isDigit = false) : c ≠ x := by
  intro heq; rw [heq] at h; rw [h] at hx; exact Bool.noConfusion hx

theorem isDigit_not_ws {c : Char} (h : c.isDigit = true) : isWs c = false := by
  have h1 : c ≠ ' ' := isDigit_ne h (by decide)
  have h2 : c ≠ '\t' := isDigit_ne h (by decide)
  have h3 : c ≠ '\n' := isDigit_ne h (by decide)
  have h4 : c ≠ '\r' := isDigit_ne h (by decide)
  simp [isWs, h1, h2, h3, h4]

theorem skipWs_not_ws {c : Char} (h : isWs c = false) (cs : List Char) :
    skipWs (c :: cs) = c :: cs := by
  simp [skipWs, h]

theorem stripPfx_append (p t : List Char) : stripPfx p (p ++ t) = some t := by
  induction p with
  | nil => rfl
  | cons c cs ih => simp [stripPfx, ih]

/-! ### Decimal digits round-trip -/

theorem natDigitsAux_append (n : Nat) (acc r : List Char) :
    natDigitsAux n acc ++ r = natDigitsAux n (acc ++ r) := by
  induction n using Nat.strong_induction_on generalizing acc with
  | _ n ih =>
    by_cases h : n < 10
    · conv_lhs => rw [natDigitsAux]
      conv_rhs => rw [natDigitsAux]
      simp [h]
    · conv_lhs => rw [natDigitsAux]
      conv_rhs => rw [natDigitsAux]
      rw [dif_neg h, dif_neg h,
        ih (n / 10) (Nat.div_lt_self (by omega) (by omega))]
      rfl

theorem parseDigitsA_natDigitsAux (n : Nat) (acc : List Char) (a : Nat) :
    parseDigitsA a (natDigitsAux n acc)
      = parseDigitsA (a * 10 ^ digitCount n + n) acc := by
  induction n using Nat.strong_induction_on generalizing acc a with
  | _ n ih =>
    by_cases h : n < 10
    · rw [natDigitsAux, dif_pos h, digitCount, dif_pos h]
      simp only [parseDigitsA, digitChar_isDigit n h, digitChar_toNat n h, if_pos,
        pow_one]
      congr 1
      omega
    · rw [natDigitsAux, dif_neg h, ih (n / 10) (Nat.div_lt_self (by omega) (by omega))]
      conv_rhs => rw [digitCount]
      rw [dif_neg h]
      have hd : (digitChar (n % 10)).isDigit = true :=
        digitChar_isDigit _ (Nat.mod_lt _ (by omega))
      have ht : (digitChar (n % 10)).toNat = 48 + n % 10 :=
        digitChar_toNat _ (Nat.mod_lt _ (by omega))
      simp only [parseDigitsA, hd, if_pos, ht]
      congr 1
      rw [pow_succ, ← mul_assoc]
      generalize a * 10 ^ digitCount (n / 10) = P
      omega

theorem parseDigitsA_stop {rest : List Char} (h : noDigitHead rest) (a : Nat) :
    parseDigitsA a rest = (a, rest) := by
  cases rest with
  | nil => rfl
  | cons c cs => simp [parseDigitsA, noDigitHead.eq_2] at h ⊢; simp [h]

theorem parseDigitsA_natDigits {rest : List Char} (h : noDigitHead rest)
    (n a : Nat) : parseDigitsA a (natDigits n ++ rest)
      = (a * 10 ^ digitCount n + n, rest) := by
  rw [natDigits, natDigitsAux_append, List.nil_append, parseDigitsA_natDigitsAux,
    parseDigitsA_stop h]

theorem natDigits_head (n : Nat) :
    ∃ d t, natDigits n = d :: t ∧ d.isDigit = true := by
  rw [natDigits]
  suffices h : ∀ m acc, ∃ d t, natDigitsAux m acc = d :: t ∧ d.isDigit = true from
    h n []
  intro m
  induction m using Nat.strong_induction_on with
  | _ m ih =>
    intro acc
    by_cases h : m < 10
    · exact ⟨digitChar m, acc, by rw [natDigitsAux, dif_pos h], digitChar_isDigit m h⟩
    · rw [natDigitsAux, dif_neg h]
      exact ih (m / 10) (Nat.div_lt_self (by omega) (by omega)) _

/-! ### String-body round-trip -/

theorem parseStringBody_esc (c : Char) (t : List Char) :
    parseStringBody (escChar c ++ t)
      = match parseStringBody t with
        | some (cs, rest) => some (c :: cs, rest)
        | none => none := by
  by_cases h1 : c = '"'
  · subst h1
    show parseStringBody ('\\' :: '"' :: t) = _
    rw [parseStringBody.eq_def]; simp +decide [unescape?]
  by_cases h2 : c = '\\'
  · subst h2
    show parseStringBody ('\\' :: '\\' :: t) = _
    rw [parseStringBody.eq_def]; simp +decide [unescape?]
  by_cases h3 : c = '\n'
  · subst h3
    show parseStringBody ('\\' :: 'n' :: t) = _
    rw [parseStringBody.eq_def]; simp +decide [unescape?]
  by_cases h4 : c = '\t'
  · subst h4
    show parseStringBody ('\\' :: 't' :: t) = _
    rw [parseStringBody.eq_def]; simp +decide [unescape?]
  by_cases h5 : c = '\r'
  · subst h5
    show parseStringBody ('\\' :: 'r' :: t) = _
    rw [parseStringBody.eq_def]; simp +decide [unescape?]
  by_cases h6 : c.toNat < 32
  · rw [escChar, if_neg h1, if_neg h2, if_neg h3, if_neg h4, if_neg h5, if_pos h6]
    have hhi : hexVal? (hexDigit (c.toNat / 16)) = some (c.toNat / 16) :=
      hexVal_hexDigit _ (by omega)
    have hlo : hexVal? (hexDigit (c.toNat % 16)) = some (c.toNat % 16) :=
      hexVal_hexDigit _ (Nat.mod_lt _ (by omega))
    have hvalid : Nat.isValidChar c.toNat := Or.inl (by omega)
    have hval : ((0 * 16 + 0) * 16 + c.toNat / 16) * 16 + c.toNat % 16 = c.toNat := by
      omega
    rw [List.cons_append, List.cons_append, List.cons_append, List.cons_append,
      List.cons_append, List.cons_append, List.nil_append, parseStringBody.eq_def]
    simp +decide only [hhi, hlo]
    rw [show hexVal? '0' = some 0 by decide]
    simp only [hval, hvalid, if_pos, Char.ofNat_toNat, if_false]
  · rw [escChar, if_neg h1, if_neg h2, if_neg h3, if_neg h4, if_neg h5, if_neg h6,
      List.cons_append, List.nil_append, parseStringBody.eq_def]
    simp only [if_neg h1, if_neg h2]

theorem parseStringBody_escList (s t : List Char) :
    parseStringBody (escList s ++ '"' :: t) = some (s, t) := by
  induction s with
  | nil =>
    rw [escList, List.nil_append, parseStringBody.eq_def]
    simp
  | cons c cs ih =>
    rw [escList, List.append_assoc, parseStringBody_esc, ih]

/-! ### Sizes: a fuel bound for the decoder -/

@[simp] theorem jsize_null : jsize .null = 1 := by rw [jsize.eq_def]

@[simp] theorem jsize_bool (b : Bool) : jsize (.bool b) = 1 := by rw [jsize.eq_def]

@[simp] theorem jsize_num (n : Int) : jsize (.num n) = 1 := by rw [jsize.eq_def]

@[simp] theorem jsize_str (s : String) : jsize (.str s) = 1 := by rw [jsize.eq_def]

@[simp] theorem jsize_arr (xs : List JVal) : jsize (.arr xs) = 1 + ejsize xs := by
  rw [jsize.eq_def]

@[simp] theorem jsize_obj (ms : List (String × JVal)) :
    jsize (.obj ms) = 1 + ojsize ms := by
  rw [jsize.eq_def]

@[simp] theorem ejsize_nil : ejsize [] = 0 := by rw [ejsize.eq_def]

@[simp] theorem ejsize_cons (x : JVal) (xs : List JVal) :
    ejsize (x :: xs) = 1 + jsize x + ejsize xs := by
  rw [ejsize.eq_def]

@[simp] theorem ojsize_nil : ojsize [] = 0 := by rw [ojsize.eq_def]

@[simp] theorem ojsize_cons (k : String) (v : JVal) (ms : List (String × JVal)) :
    ojsize ((k, v) :: ms) = 1 + jsize v + ojsize ms := by
  rw [ojsize.eq_def]

theorem jsize_pos (v : JVal) : 1 ≤ jsize v := by
  cases v <;> simp

mutual

theorem jsize_le_enc : ∀ v, jsize v ≤ (encVal v).length + 1
  | .null => by simp
  | .bool b => by cases b <;> simp
  | .num n => by simp
  | .str s => by simp
  | .arr [] => by simp
  | .arr (x :: xs) => by
    have h1 := jsize_le_enc x
    have h2 := ejsize_le_enc xs
    simp only [jsize_arr, ejsize_cons, encVal_arr_cons, List.length_cons,
      List.length_append]
    omega
  | .obj [] => by simp
  | .obj ((k, v) :: ms) => by
    have h1 := jsize_le_enc v
    have h2 := ojsize_le_enc ms
    simp only [jsize_obj, ojsize_cons, encVal_obj_cons, encMem_eq,
      List.length_cons, List.length_append]
    omega

theorem ejsize_le_enc : ∀ xs, ejsize xs ≤ (encElems xs).length
  | [] => by simp
  | x :: xs => by
    have h1 := jsize_le_enc x
    have h2 := ejsize_le_enc xs
    simp only [ejsize_cons, encElems_cons, List.length_cons, List.length_append]
    omega

theorem ojsize_le_enc : ∀ ms, ojsize ms ≤ (encMems ms).length
  | [] => by simp
  | (k, v) :: ms => by
    have h1 := jsize_le_enc v
    have h2 := ojsize_le_enc ms
    simp only [ojsize_cons, encMems_cons, encMem_eq, List.length_cons,
      List.length_append]
    omega

end

/-! ### Whitespace commutes with the decoder entry points -/

theorem skipWs_space (cs : List Char) : skipWs (' ' :: cs) = skipWs cs := by
  simp [skipWs, isWs]

theorem parseVal_ws (f : Nat) (cs : List Char) :
    parseVal f (' ' :: cs) = parseVal f cs := by
  cases f with
  | zero =>
    rw [parseVal.eq_def]
    conv_rhs => rw [parseVal.eq_def]
  | succ g =>
    rw [parseVal.eq_def]
    conv_rhs => rw [parseVal.eq_def]
    simp only [skipWs_space]

theorem parseElems_ws (f : Nat) (cs : List Char) :
    parseElems f (' ' :: cs) = parseElems f cs := by
  cases f with
  | zero =>
    rw [parseElems.eq_def]
    conv_rhs => rw [parseElems.eq_def]
  | succ g =>
    rw [parseElems.eq_def]
    conv_rhs => rw [parseElems.eq_def]
    simp only [parseVal_ws]

theorem parseMems_ws (f : Nat) (cs : List Char) :
    parseMems f (' ' :: cs) = parseMems f cs := by
  cases f with
  | zero =>
    rw [parseMems.eq_def]
    conv_rhs => rw [parseMems.eq_def]
  | succ g =>
    rw [parseMems.eq_def]
    conv_rhs => rw [parseMems.eq_def]
    simp only [skipWs_space]

/-! ### Shape of encoder output heads -/

theorem encVal_head (v : JVal) : ∃ c t, encVal v = c :: t ∧
    (c = 'n' ∨ c = 't' ∨ c = 'f' ∨ c = '"' ∨ c = '-' ∨ c.isDigit = true ∨
      c = '[' ∨ c = '{') := by
  cases v with
  | null => exact ⟨'n', _, by rw [encVal.eq_def], by decide⟩
  | bool b =>
    cases b with
    | true => exact ⟨'t', _, by rw [encVal.eq_def], by decide⟩
    | false => exact ⟨'f', _, by rw [encVal.eq_def], by decide⟩
  | num n =>
    rw [encVal_num]
    by_cases hn : n < 0
    · exact ⟨'-', _, by rw [intChars, if_pos hn], by decide⟩
    · obtain ⟨d, t, hdt, hd⟩ := natDigits_head n.natAbs
      exact ⟨d, t, by rw [intChars, if_neg hn, hdt], by tauto⟩
  | str s => exact ⟨'"', _, by rw [encVal.eq_def], by decide⟩
  | arr xs =>
    cases xs with
    | nil => exact ⟨'[', _, by rw [encVal.eq_def], by decide⟩
    | cons x xs => exact ⟨'[', _, by rw [encVal.eq_def], by decide⟩
  | obj ms =>
    cases ms with
    | nil => exact ⟨'{', _, by rw [encVal.eq_def], by decide⟩
    | cons m ms => exact ⟨'{', _, by rw [encVal.eq_def], by decide⟩

theorem encVal_head_class (v : JVal) : ∃ c t, encVal v = c :: t ∧
    isWs c = false ∧ c ≠ ']' ∧ c ≠ '}' := by
  obtain ⟨c, t, hct, hc⟩ := encVal_head v
  refine ⟨c, t, hct, ?_, ?_, ?_⟩
  · rcases hc with h | h | h | h | h | h | h | h <;>
      first
      | (subst h; decide)
      | exact isDigit_not_ws h
  · rcases hc with h | h | h | h | h | h | h | h <;>
      first
      | (subst h; decide)
      | exact isDigit_ne h (by decide)
  · rcases hc with h | h | h | h | h | h | h | h <;>
      first
      | (subst h; decide)
      | exact isDigit_ne h (by decide)

/-! ### Unfolding the decoder by head character -/

theorem parseVal_head_n (g : Nat) (r : List Char) :
    parseVal (g + 1) ('n' :: r)
      = match stripPfx ['u', 'l', 'l'] r with
        | some r' => some (.null, r')
        | none => none := by
  rw [parseVal.eq_def]
  dsimp only []
  rw [skipWs_not_ws (by decide)]
  simp +decide

theorem parseVal_head_t (g : Nat) (r : List Char) :
    parseVal (g + 1) ('t' :: r)
      = match stripPfx ['r', 'u', 'e'] r with
        | some r' => some (.bool true, r')
        | none => none := by
  rw [parseVal.eq_def]
  dsimp only []
  rw [skipWs_not_ws (by decide)]
  simp +decide

theorem parseVal_head_f (g : Nat) (r : List Char) :
    parseVal (g + 1) ('f' :: r)
      = match stripPfx ['a', 'l', 's', 'e'] r with
        | some r' => some (.bool false, r')
        | none => none := by
  rw [parseVal.eq_def]
  dsimp only []
  rw [skipWs_not_ws (by decide)]
  simp +decide

theorem parseVal_head_quote (g : Nat) (r : List Char) :
    parseVal (g + 1) ('"' :: r)
      = match parseStringBody r with
        | some (cs', rest) => some (.str ⟨cs'⟩, rest)
        | none => none := by
  rw [parseVal.eq_def]
  dsimp only []
  rw [skipWs_not_ws (by decide)]
  simp +decide

theorem parseVal_head_minus (g : Nat) (c' : Char) (r' : List Char)
    (hd : c'.isDigit = true) :
    parseVal (g + 1) ('-' :: c' :: r')
      = some (.num (-(((parseDigitsA (c'.toNat - 48) r').1 : Int))),
          (parseDigitsA (c'.toNat - 48) r').2) := by
  rw [parseVal.eq_def]
  dsimp only []
  rw [skipWs_not_ws (by decide)]
  simp +decide [hd]

theorem parseVal_head_digit (g : Nat) (c : Char) (r : List Char)
    (hd : c.isDigit = true) :
    parseVal (g + 1) (c :: r)
      = some (.num (((parseDigitsA (c.toNat - 48) r).1 : Int)),
          (parseDigitsA (c.toNat - 48) r).2) := by
  rw [parseVal.eq_def]
  dsimp only []
  rw [skipWs_not_ws (isDigit_not_ws hd)]
  dsimp only []
  rw [if_neg (isDigit_ne hd (by decide)), if_neg (isDigit_ne hd (by decide)),
    if_neg (isDigit_ne hd (by decide)), if_neg (isDigit_ne hd (by decide)),
    if_neg (isDigit_ne hd (by decide)), if_neg (isDigit_ne hd (by decide)),
    if_neg (isDigit_ne hd (by decide)), if_pos hd]

theorem parseVal_head_lbrack (g : Nat) (r : List Char) :
    parseVal (g + 1) ('[' :: r)
      = match skipWs r with
        | [] => none
        | c' :: r' =>
          if c' = ']' then some (.arr [], r')
          else
            match parseElems g (c' :: r') with
            | some (xs, rest) => some (.arr xs, rest)
            | none => none := by
  rw [parseVal.eq_def]
  dsimp only []
  rw [skipWs_not_ws (by decide)]
  simp +decide

theorem parseVal_head_lbrace (g : Nat) (r : List Char) :
    parseVal (g + 1) ('{' :: r)
      = match skipWs r with
        | [] => none
        | c' :: r' =>
          if c' = '}' then some (.obj [], r')
          else
            match parseMems g (c' :: r') with
            | some (ms, rest) => some (.obj ms, rest)
            | none => none := by
  rw [parseVal.eq_def]
  dsimp only []
  rw [skipWs_not_ws (by decide)]
  simp +decide

theorem parseElems_succ (g : Nat) (cs : List Char) :
    parseElems (g + 1) cs
      = match parseVal g cs with
        | some (v, r) =>
          match skipWs r with
          | ',' :: r' =>
            match parseElems g r' with
            | some (xs, rest) => some (v :: xs, rest)
            | none => none
          | ']' :: r' => some ([v], r')
          | _ => none
        | none => none := by
  rw [parseElems.eq_def]

theorem parseMems_succ (g : Nat) (cs : List Char) :
    parseMems (g + 1) cs
      = match skipWs cs with
        | '"' :: r =>
          match parseStringBody r with
          | some (kcs, r1) =>
            match skipWs r1 with
            | ':' :: r2 =>
              match parseVal g r2 with
              | some (v, r3) =>
                match skipWs r3 with
                | ',' :: r4 =>
                  match parseMems g r4 with
                  | some (ms, rest) => some ((⟨kcs⟩, v) :: ms, rest)
                  | none => none
                | '}' :: r4 => some ([(⟨kcs⟩, v)], r4)
                | _ => none
              | none => none
            | _ => none
          | none => none
        | _ => none := by
  rw [parseMems.eq_def]

theorem noDigitHead_cons {c : Char} (cs : List Char) (h : c.isDigit = false) :
    noDigitHead (c :: cs) := h

/-! ### The decoder inverts the encoder -/

theorem parse_enc_all (f : Nat) :
    (∀ v rest, jsize v ≤ f → noDigitHead rest →
      parseVal f (encVal v ++ rest) = some (v, rest)) ∧
    (∀ x xs rest, 1 + jsize x + ejsize xs ≤ f →
      parseElems f (encVal x ++ (encElems xs ++ ']' :: rest)) = some (x :: xs, rest)) ∧
    (∀ k v ms rest, 1 + jsize v + ojsize ms ≤ f →
      parseMems f (encMem (k, v) ++ (encMems ms ++ '}' :: rest))
        = some ((k, v) :: ms, rest)) := by
  induction f using Nat.strong_induction_on with
  | _ f ih =>
    refine ⟨?_, ?_, ?_⟩
    · intro v rest hsz hnd
      match f, hsz with
      | 0, hsz => exact absurd hsz (by have := jsize_pos v; omega)
      | g + 1, hsz =>
        cases v with
        | null =>
          rw [encVal_null, List.cons_append, parseVal_head_n, stripPfx_append]
        | bool b =>
          cases b
          · rw [encVal_false, List.cons_append, parseVal_head_f, stripPfx_append]
          · rw [encVal_true, List.cons_append, parseVal_head_t, stripPfx_append]
        | num n =>
          obtain ⟨d, t, hdt, hd⟩ := natDigits_head n.natAbs
          have key : parseDigitsA (d.toNat - 48) (t ++ rest) = (n.natAbs, rest) := by
            have h0 := parseDigitsA_natDigits hnd n.natAbs 0
            rw [hdt, List.cons_append] at h0
            simp only [parseDigitsA, hd, if_pos] at h0
            simpa using h0
          rw [encVal_num, intChars]
          by_cases hn : n < 0
          · rw [if_pos hn, hdt, List.cons_append, List.cons_append,
              parseVal_head_minus g d (t ++ rest) hd, key]
            have : -((n.natAbs : Int)) = n := by omega
            rw [this]
          · rw [if_neg hn, hdt, List.cons_append, parseVal_head_digit g d _ hd, key]
            have : ((n.natAbs : Int)) = n := by omega
            rw [this]
        | str s =>
          rw [encVal_str, List.cons_append, parseVal_head_quote,
            List.append_assoc, List.singleton_append, parseStringBody_escList]
        | arr xs =>
          cases xs with
          | nil =>
            rw [encVal_arr_nil]
            rw [show ['[', ']'] ++ rest = '[' :: ']' :: rest from rfl,
              parseVal_head_lbrack, skipWs_not_ws (by decide)]
            simp +decide
          | cons x xs =>
            rw [encVal_arr_cons, List.cons_append, parseVal_head_lbrack,
              List.append_assoc, List.append_assoc, List.singleton_append]
            obtain ⟨c, t, hct, hws, hbr, _⟩ := encVal_head_class x
            rw [hct, List.cons_append, skipWs_not_ws hws]
            have hsz' : 1 + jsize x + ejsize xs ≤ g := by
              rw [jsize_arr, ejsize_cons] at hsz; omega
            dsimp only []
            rw [if_neg hbr, ← List.cons_append, ← hct,
              (ih g (by omega)).2.1 x xs rest hsz']
        | obj ms =>
          cases ms with
          | nil =>
            rw [encVal_obj_nil]
            rw [show ['{', '}'] ++ rest = '{' :: '}' :: rest from rfl,
              parseVal_head_lbrace, skipWs_not_ws (by decide)]
            simp +decide
          | cons m ms =>
            obtain ⟨k, v⟩ := m
            rw [encVal_obj_cons, List.cons_append, parseVal_head_lbrace,
              List.append_assoc, List.append_assoc, List.singleton_append]
            rw [encMem_eq, List.cons_append, skipWs_not_ws (by decide)]
            have hsz' : 1 + jsize v + ojsize ms ≤ g := by
              rw [jsize_obj, ojsize_cons] at hsz; omega
            dsimp only []
            rw [if_neg (by decide : ¬('"' = '}')), ← List.cons_append, ← encMem_eq,
              (ih g (by omega)).2.2 k v ms rest hsz']
    · intro x xs rest hsz
      match f, hsz with
      | 0, hsz => exact absurd hsz (by omega)
      | g + 1, hsz =>
        have hjx : jsize x ≤ g := by omega
        have hnd : noDigitHead (encElems xs ++ ']' :: rest) := by
          cases xs with
          | nil =>
            rw [encElems_nil, List.nil_append]
            exact noDigitHead_cons _ (by decide)
          | cons y ys =>
            rw [encElems_cons, List.cons_append]
            exact noDigitHead_cons _ (by decide)
        rw [parseElems_succ, (ih g (by omega)).1 x _ hjx hnd]
        dsimp only []
        cases xs with
        | nil =>
          rw [encElems_nil, List.nil_append, skipWs_not_ws (by decide)]
          rfl
        | cons y ys =>
          have hsz' : 1 + jsize y + ejsize ys ≤ g := by
            rw [ejsize_cons] at hsz
            have := jsize_pos x
            omega
          have hE : parseElems g (' ' :: (encVal y ++ (encElems ys ++ ']' :: rest)))
              = some (y :: ys, rest) := by
            rw [parseElems_ws, (ih g (by omega)).2.1 y ys rest hsz']
          rw [encElems_cons, List.cons_append, List.cons_append,
            skipWs_not_ws (by decide), List.append_assoc]
          simp +decide [hE]
    · intro k v ms rest hsz
      match f, hsz with
      | 0, hsz => exact absurd hsz (by omega)
      | g + 1, hsz =>
        have hjv : jsize v ≤ g := by omega
        have hnd : noDigitHead (encMems ms ++ '}' :: rest) := by
          cases ms with
          | nil =>
            rw [encMems_nil, List.nil_append]
            exact noDigitHead_cons _ (by decide)
          | cons m ms' =>
            rw [encMems_cons, List.cons_append]
            exact noDigitHead_cons _ (by decide)
        have hV : parseVal g (' ' :: (encVal v ++ (encMems ms ++ '}' :: rest)))
            = some (v, encMems ms ++ '}' :: rest) := by
          rw [parseVal_ws, (ih g (by omega)).1 v _ hjv hnd]
        have hS := parseStringBody_escList k.data
          (':' :: ' ' :: (encVal v ++ (encMems ms ++ '}' :: rest)))
        have hk : (⟨k.data⟩ : String) = k := rfl
        rw [parseMems_succ, encMem_eq, List.cons_append, skipWs_not_ws (by decide)]
        cases ms with
        | nil =>
          simp only [encMems_nil, List.nil_append] at hV hS
          simp +decide [hS, hV, hk, skipWs]
        | cons m ms' =>
          obtain ⟨k', v'⟩ := m
          have hsz' : 1 + jsize v' + ojsize ms' ≤ g := by
            rw [ojsize_cons] at hsz
            have := jsize_pos v
            omega
          have hM : parseMems g (' ' :: (encMem (k', v') ++ (encMems ms' ++ '}' :: rest)))
              = some ((k', v') :: ms', rest) := by
            rw [parseMems_ws, (ih g (by omega)).2.2 k' v' ms' rest hsz']
          simp only [encMems_cons, encMem_eq, List.cons_append, List.append_assoc]
            at hV hS hM
          simp +decide [hS, hV, hM, hk, skipWs]

/-- Decoding inverts encoding: `json.loads` of `json.dumps` of any value
gives back the value. -/
theorem jsonParse_jsonEncode (v : JVal) : jsonParse (jsonEncode v) = some v := by
  rw [jsonParse, jsonEncode]
  have hdata : (String.mk (encVal v)).data = encVal v := rfl
  have hlen : (String.mk (encVal v)).length = (encVal v).length := rfl
  rw [hdata, hlen]
  have hP := (parse_enc_all ((encVal v).length + 1)).1 v []
    (by have := jsize_le_enc v; omega) (by exact trivial)
  rw [List.append_nil] at hP
  rw [hP]
  rfl

/-! ### Object-lookup facts -/

theorem containsKey_of_lookup {kvs : List (String × JVal)} {k : String} {v : JVal}
    (h : objLookup kvs k = some v) : containsKey kvs k = true := by
  induction kvs with
  | nil => simp [objLookup] at h
  | cons p rest ih =>
    obtain ⟨k', v'⟩ := p
    rcases hrest : objLookup rest k with _ | w
    · rw [objLookup, hrest] at h
      dsimp only [] at h
      split at h
      · next heq => simp [containsKey, heq]
      · exact absurd h (by simp)
    · rw [objLookup, hrest] at h
      dsimp only [] at h
      have hr := ih (by rw [hrest]; exact h)
      simp only [containsKey, List.any_cons, Bool.or_eq_true]
      right
      simpa [containsKey] using hr

/-- The bridge from the wire to the dispatcher: feeding the server the
encoding of a request object runs `dispatch` on that object. -/
theorem handle_request_core_enc (v : JVal) :
    handle_request_core (jsonEncode v)
      = match dispatch v with
        | .ok br => br
        | .error msg =>
          (true, create_error_response .null (-32603) ("Internal error: " ++ msg)) := by
  rw [handle_request_core, jsonParse_jsonEncode]

/-! ### Evaluating the dispatcher on the request shapes the claims use -/

theorem dispatch_shutdown (kvs : List (String × JVal)) (i : JVal)
    (hm : objLookup kvs "method" = some (.str "shutdown"))
    (hid : objLookup kvs "id" = some i) :
    dispatch (.obj kvs) = .ok (false, mkResult i (.obj [])) := by
  have hc := containsKey_of_lookup hm
  simp +decide [dispatch, pyContains, pySubscript, pyGetD, hc, hm, hid, isStrEq,
    handle_shutdown, bind, Except.bind, pure, Except.pure]

theorem dispatch_unregistered (kvs : List (String × JVal)) (i m : JVal)
    (hm : objLookup kvs "method" = some m)
    (hid : objLookup kvs "id" = some i)
    (hr : isRegisteredMethod m = false) :
    dispatch (.obj kvs)
      = .ok (true, create_error_response i (-32601)
          ("Method not found: " ++ pyStrOf m)) := by
  have hc := containsKey_of_lookup hm
  simp only [isRegisteredMethod, Bool.or_eq_false_iff] at hr
  obtain ⟨⟨⟨⟨⟨⟨⟨h1, h2⟩, h3⟩, h4⟩, h5⟩, h6⟩, h7⟩, h8⟩ := hr
  simp [dispatch, pyContains, pySubscript, pyGetD, hc, hm, hid,
    h1, h2, h3, h4, h5, h6, h7, h8, bind, Except.bind, pure, Except.pure]

theorem dispatch_tools_execute (kvs : List (String × JVal)) (i params : JVal)
    (hm : objLookup kvs "method" = some (.str "tools/execute"))
    (hid : objLookup kvs "id" = some i)
    (hp : (objLookup kvs "params").getD (.obj []) = params) :
    dispatch (.obj kvs)
      = match handle_tools_execute i params with
        | .ok r => .ok (true, r)
        | .error e => .error e := by
  have hc := containsKey_of_lookup hm
  cases hte : handle_tools_execute i params <;>
    simp +decide [dispatch, pyContains, pySubscript, pyGetD, hc, hm, hid, hp,
      isStrEq, hte, bind, Except.bind, pure, Except.pure]

theorem dispatch_no_method (kvs : List (String × JVal))
    (hnm : containsKey kvs "method" = false) :
    dispatch (.obj kvs)
      = .ok (true, create_error_response ((objLookup kvs "id").getD .null)
          (-32600) "Invalid Request") := by
  simp [dispatch, pyContains, pyGetD, hnm, bind, Except.bind, pure, Except.pure]

theorem dispatch_non_obj (v : JVal) (hno : ∀ kvs, v ≠ .obj kvs) :
    ∃ msg, dispatch v = .error msg := by
  cases v with
  | null => exact ⟨_, by simp [dispatch, pyContains, bind, Except.bind]; rfl⟩
  | bool b => exact ⟨_, by simp [dispatch, pyContains, bind, Except.bind]; rfl⟩
  | num n => exact ⟨_, by simp [dispatch, pyContains, bind, Except.bind]; rfl⟩
  | str s =>
    by_cases hsub : listIsSub ("method".data) s.data = true
    · exact ⟨_, by simp [dispatch, pyContains, pySubscript, hsub,
        bind, Except.bind, pure, Except.pure]; rfl⟩
    · rw [Bool.not_eq_true] at hsub
      exact ⟨_, by simp [dispatch, pyContains, pyGetD, pySubscript, hsub,
        bind, Except.bind, pure, Except.pure]; rfl⟩
  | arr xs =>
    by_cases hel : (xs.any (fun x => match x with
        | .str t => t = "method"
        | _ => false)) = true
    · exact ⟨_, by simp [dispatch, pyContains, pySubscript, hel,
        bind, Except.bind, pure, Except.pure]; rfl⟩
    · rw [Bool.not_eq_true] at hel
      exact ⟨_, by simp [dispatch, pyContains, pyGetD, pySubscript, hel,
        bind, Except.bind, pure, Except.pure]; rfl⟩
  | obj kvs => exact absurd rfl (hno kvs)

/-! ### Evaluating the `add` tool handler -/

theorem hte_add_present (i : JVal) (pkvs akvs : List (String × JVal)) (a b : JVal)
    (hid : objLookup pkvs "id" = some (.str "add"))
    (hargs : objLookup pkvs "args" = some (.obj akvs))
    (ha : objLookup akvs "a" = some a)
    (hb : objLookup akvs "b" = some b) :
    handle_tools_execute i (.obj pkvs)
      = match pyAdd a b with
        | .ok v => .ok (mkResult i (.obj [("result", v)]))
        | .error e => .error e := by
  have hca := containsKey_of_lookup ha
  have hcb := containsKey_of_lookup hb
  cases hab : pyAdd a b <;>
    simp +decide [handle_tools_execute, pyGetD, pyTruthy, regLookup, pySubscript,
      pyContains, findMissingArg, argNamesOf, jGet, serverTools, objLookup,
      isStrEq, hid, hargs, ha, hb, hca, hcb, hab, bind, Except.bind, pure,
      Except.pure]

theorem hte_add_missing_b (i : JVal) (pkvs akvs : List (String × JVal))
    (hid : objLookup pkvs "id" = some (.str "add"))
    (hargs : objLookup pkvs "args" = some (.obj akvs))
    (hca : containsKey akvs "a" = true)
    (hcb : containsKey akvs "b" = false) :
    handle_tools_execute i (.obj pkvs)
      = .ok (create_error_response i (-32602) "Missing argument: b") := by
  simp +decide [handle_tools_execute, pyGetD, pyTruthy, regLookup, pySubscript,
    pyContains, findMissingArg, argNamesOf, jGet, serverTools, objLookup,
    isStrEq, hid, hargs, hca, hcb, bind, Except.bind, pure, Except.pure]

theorem hte_add_missing_a (i : JVal) (pkvs akvs : List (String × JVal))
    (hid : objLookup pkvs "id" = some (.str "add"))
    (hargs : objLookup pkvs "args" = some (.obj akvs))
    (hca : containsKey akvs "a" = false) :
    handle_tools_execute i (.obj pkvs)
      = .ok (create_error_response i (-32602) "Missing argument: a") := by
  simp +decide [handle_tools_execute, pyGetD, pyTruthy, regLookup, pySubscript,
    pyContains, findMissingArg, argNamesOf, jGet, serverTools, objLookup,
    isStrEq, hid, hargs, hca, bind, Except.bind, pure, Except.pure]

/-! ### Response shapes -/

theorem hasResult_mkResult (i v : JVal) : hasResult (mkResult i v) = true := by
  simp +decide [hasResult, mkResult, objFields, containsKey]

theorem hasError_mkResult (i v : JVal) : hasError (mkResult i v) = false := by
  simp +decide [hasError, mkResult, objFields, containsKey]

theorem hasResult_err (i : JVal) (c : Int) (m : String) :
    hasResult (create_error_response i c m) = false := by
  simp +decide [hasResult, create_error_response, objFields, containsKey]

theorem hasError_err (i : JVal) (c : Int) (m : String) :
    hasError (create_error_response i c m) = true := by
  simp +decide [hasError, create_error_response, objFields, containsKey]

theorem respErrorCode_mkResult (i v : JVal) : respErrorCode (mkResult i v) = none := by
  simp +decide [respErrorCode, mkResult, objFields, objLookup]

theorem respErrorCode_err (i : JVal) (c : Int) (m : String) :
    respErrorCode (create_error_response i c m) = some c := by
  simp +decide [respErrorCode, create_error_response, objFields, objLookup]

theorem runLoop_false (ls : List String) : runLoop false ls = [] := by
  cases ls <;> simp [runLoop]

/-! ### Every branch produces a response of one of the two shapes -/

theorem isResp_handle_initialize (i p r : JVal)
    (h : handle_initialize i p = .ok r) : IsResp r := by
  simp only [ handle_initialize, bind, Except.bind, pure, Except.pure] at h
  repeat' split at h
  all_goals
    first
    | (injection h with h'; rw [← h']; exact Or.inl ⟨_, _, rfl⟩)
    | (injection h with h'; rw [← h']; exact Or.inr ⟨_, _, _, rfl⟩)
    | injection h

theorem isResp_handle_resources_get (i p r : JVal)
    (h : handle_resources_get i p = .ok r) : IsResp r := by
  simp only [handle_resources_get, bind, Except.bind, pure, Except.pure] at h
  repeat' split at h
  all_goals
    first
    | (injection h with h'; rw [← h']; exact Or.inl ⟨_, _, rfl⟩)
    | (injection h with h'; rw [← h']; exact Or.inr ⟨_, _, _, rfl⟩)
    | injection h

theorem isResp_handle_prompts_execute (i p r : JVal)
    (h : handle_prompts_execute i p = .ok r) : IsResp r := by
  simp only [handle_prompts_execute, bind, Except.bind, pure, Except.pure] at h
  repeat' split at h
  all_goals
    first
    | (injection h with h'; rw [← h']; exact Or.inl ⟨_, _, rfl⟩)
    | (injection h with h'; rw [← h']; exact Or.inr ⟨_, _, _, rfl⟩)
    | injection h

theorem isResp_handle_tools_execute (i p r : JVal)
    (h : handle_tools_execute i p = .ok r) : IsResp r := by
  simp only [handle_tools_execute, bind, Except.bind, pure, Except.pure] at h
  repeat' split at h
  all_goals
    first
    | (injection h with h'; rw [← h']; exact Or.inl ⟨_, _, rfl⟩)
    | (injection h with h'; rw [← h']; exact Or.inr ⟨_, _, _, rfl⟩)
    | injection h

theorem isResp_dispatch (req : JVal) (b : Bool) (r : JVal)
    (h : dispatch req = .ok (b, r)) : IsResp r := by
  simp only [dispatch, bind, Except.bind, pure, Except.pure] at h
  repeat' split at h
  all_goals
    first
    | (injection h with h'; rw [← h']; exact Or.inl ⟨_, _, rfl⟩)
    | (injection h with h'; rw [← h']; exact Or.inr ⟨_, _, _, rfl⟩)
    | (injection h with h'; injection h' with hb hr; rw [← hr];
        first
        | exact isResp_handle_initialize _ _ _ (by assumption)
        | exact isResp_handle_resources_get _ _ _ (by assumption)
        | exact isResp_handle_prompts_execute _ _ _ (by assumption)
        | exact isResp_handle_tools_execute _ _ _ (by assumption)
        | exact Or.inl ⟨_, _, rfl⟩
        | exact Or.inr ⟨_, _, _, rfl⟩)
    | injection h

theorem isResp_handle_request_core (s : String) :
    IsResp (handle_request_core s).2 := by
  rw [handle_request_core]
  cases hp : jsonParse s with
  | none => exact Or.inr ⟨_, _, _, rfl⟩
  | some request =>
    dsimp only []
    cases hd : dispatch request with
    | ok br =>
      dsimp only []
      exact isResp_dispatch request br.1 br.2 (by rw [hd])
    | error msg =>
      dsimp only []
      exact Or.inr ⟨_, _, _, rfl⟩

/-! ## The claims -/

theorem idAfterCalls_eq (n : Nat) : idAfterCalls n = n := by
  induction n with
  | zero => rfl
  | succ m ih => simp [idAfterCalls, next_id, ih]

/-- C7: on a freshly created session the nth call to the client's id
allocator (`next_id`, starting from `request_id = 0`) returns n — the
first allocated id is 1 — and every allocated id is strictly greater
than every id allocated before it. -/
theorem c7_id_allocation_monotonic (n : Nat) :
    nthAllocatedId n = n + 1
    ∧ ∀ m, m < n → nthAllocatedId m < nthAllocatedId n := by
  constructor
  · rw [nthAllocatedId, idAfterCalls_eq]
    rfl
  · intro m hm
    rw [nthAllocatedId, nthAllocatedId, idAfterCalls_eq, idAfterCalls_eq]
    simpa [next_id] using hm

/-- Witness for C7 at n = 2: the third call returns 3, and the first
allocated id (1) is smaller. -/
theorem c7_witness :
    nthAllocatedId 0 = 0 + 1 ∧ nthAllocatedId 2 = 2 + 1 ∧ (0 : Nat) < 2
    ∧ nthAllocatedId 0 < nthAllocatedId 2 :=
  ⟨(c7_id_allocation_monotonic 0).1, (c7_id_allocation_monotonic 2).1,
    by decide, (c7_id_allocation_monotonic 2).2 0 (by decide)⟩

/-- C9: encoding a Request to one line and decoding that line reproduces
the same id, method and params; the same holds for success and error
Responses. -/
theorem c9_wire_roundtrip :
    (∀ (i : JVal) (m : String) (p : JVal),
      jsonParse (jsonEncode (mkRequest i m p)) = some (mkRequest i m p))
    ∧ (∀ (i r : JVal), jsonParse (jsonEncode (mkResult i r)) = some (mkResult i r))
    ∧ (∀ (i : JVal) (c : Int) (msg : String),
        jsonParse (jsonEncode (create_error_response i c msg))
          = some (create_error_response i c msg)) :=
  ⟨fun _ _ _ => jsonParse_jsonEncode _, fun _ _ => jsonParse_jsonEncode _,
    fun _ _ _ => jsonParse_jsonEncode _⟩

/-- C1 counterexample: `send_request` with pending request id 1,
receiving a response line whose id is 2, returns that response to the
caller as if it were the answer — the id is never compared and no
`IdMismatch` anomaly exists in the client. -/
theorem c1_counterexample :
    send_request (mkRequest (.num 1) "resources/list" (.obj []))
        (some (jsonEncode (mkResult (.num 2) (.obj []))))
      = some (mkResult (.num 2) (.obj []))
    ∧ respId (mkRequest (.num 1) "resources/list" (.obj [])) = some (.num 1)
    ∧ respId (mkResult (.num 2) (.obj [])) = some (.num 2)
    ∧ (JVal.num 2) ≠ (JVal.num 1) := by
  refine ⟨?_, rfl, rfl, by simp⟩
  rw [send_request, jsonParse_jsonEncode]

/-- C1 (amended): `send_request` performs no id check at all — whatever
the next received line decodes to is returned to the caller as the
response, whether or not its id matches the pending request's id; a
mismatched response is therefore returned as if it were the answer, not
reported as an `IdMismatch` anomaly (no such anomaly exists in the
code). When the stream is closed or the line does not decode, the caller
gets `none`. -/
theorem c1_send_request_returns_line_unchecked (request : JVal) (line : String)
    (v : JVal) (h : jsonParse line = some v) :
    send_request request (some line) = some v := by
  rw [send_request, h]

/-- Witness for C1 (amended) at a concrete request and line. -/
theorem c1_witness :
    jsonParse (jsonEncode (mkResult (.num 1) (.obj [])))
      = some (mkResult (.num 1) (.obj []))
    ∧ send_request (mkRequest (.num 1) "tools/list" (.obj []))
        (some (jsonEncode (mkResult (.num 1) (.obj []))))
      = some (mkResult (.num 1) (.obj [])) :=
  ⟨jsonParse_jsonEncode _,
    c1_send_request_returns_line_unchecked _ _ _ (jsonParse_jsonEncode _)⟩

/-- C2 counterexample: a well-formed request with an unknown method but
no id field is answered with error code -32603 ("Internal error: 'id'",
from the `KeyError` raised by `request["id"]`) and a null id — not with
-32601. -/
theorem c2_counterexample :
    (handle_request_core (jsonEncode (.obj [("method", .str "nonexistent")]))).2
      = create_error_response .null (-32603)
          ("Internal error: " ++ sq ++ "id" ++ sq)
    ∧ respErrorCode
        ((handle_request_core (jsonEncode (.obj [("method", .str "nonexistent")]))).2)
        = some (-32603)
    ∧ ((-32603 : Int) ≠ -32601) := by
  refine ⟨?_, ?_, by decide⟩
  · rw [handle_request_core_enc]
    rfl
  · rw [handle_request_core_enc]
    rfl

/-- C2 (amended): for every well-formed request that carries an id
field, whose method names no registered handler, dispatch responds with
error code -32601 echoing the request's id, regardless of the request's
params; a request without an id field instead yields -32603 with a null
id (see the counterexample). -/
theorem c2_unknown_method_with_id (kvs : List (String × JVal)) (i m : JVal)
    (hid : objLookup kvs "id" = some i)
    (hm : objLookup kvs "method" = some m)
    (hr : isRegisteredMethod m = false) :
    (handle_request_core (jsonEncode (.obj kvs))).2
      = create_error_response i (-32601) ("Method not found: " ++ pyStrOf m) := by
  rw [handle_request_core_enc, dispatch_unregistered kvs i m hm hid hr]

/-- Witness for C2 (amended): Scenario C,
`{"id": 3, "method": "nonexistent"}`. -/
theorem c2_witness :
    objLookup [("id", JVal.num 3), ("method", JVal.str "nonexistent")] "id"
      = some (.num 3)
    ∧ objLookup [("id", JVal.num 3), ("method", JVal.str "nonexistent")] "method"
      = some (.str "nonexistent")
    ∧ isRegisteredMethod (.str "nonexistent") = false
    ∧ (handle_request_core (jsonEncode
        (.obj [("id", JVal.num 3), ("method", JVal.str "nonexistent")]))).2
      = create_error_response (.num 3) (-32601) "Method not found: nonexistent" :=
  ⟨rfl, rfl, rfl,
    c2_unknown_method_with_id [("id", JVal.num 3), ("method", JVal.str "nonexistent")]
      (.num 3) (.str "nonexistent") rfl rfl rfl⟩

/-- C3 counterexample: a handler failure after argument validation
(adding a string and a number) is answered with -32603 whose id is null,
not the id (7) of the request that caused the failure. -/
theorem c3_counterexample :
    (handle_request_core (jsonEncode (mkRequest (.num 7) "tools/execute"
        (.obj [("id", .str "add"),
          ("args", .obj [("a", .str "x"), ("b", .num 5)])])))).2
      = create_error_response .null (-32603)
          ("Internal error: can only concatenate str (not \"int\") to str")
    ∧ respId (create_error_response .null (-32603)
          ("Internal error: can only concatenate str (not \"int\") to str"))
        = some .null
    ∧ (JVal.null ≠ JVal.num 7) := by
  refine ⟨?_, rfl, by simp⟩
  rw [handle_request_core_enc]
  rfl

/-- C3 (amended): when a dispatched `tools/execute` of the `add` tool
passes argument validation but the handler's computation itself raises,
the server responds with error code -32603 ("Internal error: <message>")
and the response's id is null — the id of the failing request is not
echoed, because `handle_request` catches the exception outside the
handler and builds the error response with a `None` id. -/
theorem c3_handler_failure_internal_error_null_id
    (kvs pkvs akvs : List (String × JVal)) (i a b : JVal) (msg : String)
    (hid : objLookup kvs "id" = some i)
    (hm : objLookup kvs "method" = some (.str "tools/execute"))
    (hp : objLookup kvs "params" = some (.obj pkvs))
    (hpid : objLookup pkvs "id" = some (.str "add"))
    (hpargs : objLookup pkvs "args" = some (.obj akvs))
    (ha : objLookup akvs "a" = some a)
    (hb : objLookup akvs "b" = some b)
    (hadd : pyAdd a b = .error msg) :
    (handle_request_core (jsonEncode (.obj kvs))).2
      = create_error_response .null (-32603) ("Internal error: " ++ msg) := by
  rw [handle_request_core_enc,
    dispatch_tools_execute kvs i (.obj pkvs) hm hid (by rw [hp]; rfl),
    hte_add_present i pkvs akvs a b hpid hpargs ha hb, hadd]

/-- Witness for C3 (amended) at the counterexample's request. -/
theorem c3_witness :
    pyAdd (.str "x") (.num 5)
      = .error ("can only concatenate str (not \"int\") to str")
    ∧ (handle_request_core (jsonEncode (.obj [("jsonrpc", JVal.str "2.0"),
        ("id", JVal.num 7), ("method", JVal.str "tools/execute"),
        ("params", JVal.obj [("id", JVal.str "add"),
          ("args", JVal.obj [("a", JVal.str "x"), ("b", JVal.num 5)])])]))).2
      = create_error_response .null (-32603)
          ("Internal error: " ++ "can only concatenate str (not \"int\") to str") :=
  ⟨rfl,
    c3_handler_failure_internal_error_null_id _ _ _ (JVal.num 7)
      (JVal.str "x") (JVal.num 5) _ rfl rfl rfl rfl rfl rfl rfl rfl⟩

/-- C4 counterexample: a `tools/execute` of `add` with every required
argument present but wrongly typed does NOT fail with -32602: with
`a = "2"`, `b = 3` the handler raises and the response's code is -32603;
with `a = "x"`, `b = "y"` the call succeeds outright, returning the
concatenation "xy". -/
theorem c4_counterexample :
    respErrorCode ((handle_request_core (jsonEncode (mkRequest (.num 4)
        "tools/execute" (.obj [("id", .str "add"),
          ("args", .obj [("a", .str "2"), ("b", .num 3)])])))).2)
      = some (-32603)
    ∧ ((-32603 : Int) ≠ -32602)
    ∧ (handle_request_core (jsonEncode (mkRequest (.num 5) "tools/execute"
        (.obj [("id", .str "add"),
          ("args", .obj [("a", .str "x"), ("b", .str "y")])])))).2
      = mkResult (.num 5) (.obj [("result", .str "xy")]) := by
  refine ⟨?_, by decide, ?_⟩ <;> (rw [handle_request_core_enc]; rfl)

/-- C4 (amended): the handlers validate only the presence of declared
required arguments, never their types: a `tools/execute` of `add` in
which both `a` and `b` are present never produces error code -32602 —
the Python `+` either yields a result (e.g. string concatenation) or
raises, which surfaces as a -32603 internal error with null id. -/
theorem c4_presence_only_validation
    (kvs pkvs akvs : List (String × JVal)) (i a b : JVal)
    (hid : objLookup kvs "id" = some i)
    (hm : objLookup kvs "method" = some (.str "tools/execute"))
    (hp : objLookup kvs "params" = some (.obj pkvs))
    (hpid : objLookup pkvs "id" = some (.str "add"))
    (hpargs : objLookup pkvs "args" = some (.obj akvs))
    (ha : objLookup akvs "a" = some a)
    (hb : objLookup akvs "b" = some b) :
    respErrorCode ((handle_request_core (jsonEncode (.obj kvs))).2)
      ≠ some (-32602) := by
  rw [handle_request_core_enc,
    dispatch_tools_execute kvs i (.obj pkvs) hm hid (by rw [hp]; rfl),
    hte_add_present i pkvs akvs a b hpid hpargs ha hb]
  cases hab : pyAdd a b with
  | ok v =>
    dsimp only []
    rw [respErrorCode_mkResult]
    simp
  | error e =>
    dsimp only []
    rw [respErrorCode_err]
    simp

/-- Witness for C4 (amended) at the wrongly-typed but present
arguments `a = "2"`, `b = 3`. -/
theorem c4_witness :
    objLookup [("a", JVal.str "2"), ("b", JVal.num 3)] "a" = some (.str "2")
    ∧ objLookup [("a", JVal.str "2"), ("b", JVal.num 3)] "b" = some (.num 3)
    ∧ respErrorCode ((handle_request_core (jsonEncode (.obj
        [("jsonrpc", JVal.str "2.0"), ("id", JVal.num 4),
         ("method", JVal.str "tools/execute"),
         ("params", JVal.obj [("id", JVal.str "add"),
           ("args", JVal.obj [("a", JVal.str "2"), ("b", JVal.num 3)])])]))).2)
      ≠ some (-32602) :=
  ⟨rfl, rfl,
    c4_presence_only_validation _ _ _ (JVal.num 4) (JVal.str "2") (JVal.num 3)
      rfl rfl rfl rfl rfl rfl rfl⟩

/-- C5: dispatching `tools/execute` of the registered tool `add` whose
params omit a declared required argument responds with error code -32602
whose message names the first missing argument, and the response's id
equals the request's id. -/
theorem c5_missing_argument_32602
    (kvs pkvs akvs : List (String × JVal)) (i : JVal)
    (hid : objLookup kvs "id" = some i)
    (hm : objLookup kvs "method" = some (.str "tools/execute"))
    (hp : objLookup kvs "params" = some (.obj pkvs))
    (hpid : objLookup pkvs "id" = some (.str "add"))
    (hpargs : objLookup pkvs "args" = some (.obj akvs))
    (hmiss : containsKey akvs "a" = false ∨ containsKey akvs "b" = false) :
    (handle_request_core (jsonEncode (.obj kvs))).2
      = create_error_response i (-32602)
          ("Missing argument: "
            ++ (if containsKey akvs "a" = true then "b" else "a")) := by
  rw [handle_request_core_enc,
    dispatch_tools_execute kvs i (.obj pkvs) hm hid (by rw [hp]; rfl)]
  by_cases hca : containsKey akvs "a" = true
  · have hcb : containsKey akvs "b" = false := by
      rcases hmiss with h | h
      · rw [h] at hca; exact absurd hca (by decide)
      · exact h
    rw [hte_add_missing_b i pkvs akvs hpid hpargs hca hcb, if_pos hca]
    rfl
  · have hca' : containsKey akvs "a" = false := by
      revert hca; cases containsKey akvs "a" <;> simp
    rw [hte_add_missing_a i pkvs akvs hpid hpargs hca', if_neg hca]
    rfl

/-- Witness for C5: Scenario B, `{"id": 2, "method": "tools/execute",
"params": {"id": "add", "args": {"a": 2}}}` yields -32602 naming `b`
and echoing id 2. -/
theorem c5_witness :
    containsKey [("a", JVal.num 2)] "b" = false
    ∧ (handle_request_core (jsonEncode (.obj [("jsonrpc", JVal.str "2.0"),
        ("id", JVal.num 2), ("method", JVal.str "tools/execute"),
        ("params", JVal.obj [("id", JVal.str "add"),
          ("args", JVal.obj [("a", JVal.num 2)])])]))).2
      = create_error_response (.num 2) (-32602)
          ("Missing argument: "
            ++ (if containsKey [("a", JVal.num 2)] "a" = true then "b" else "a")) :=
  ⟨rfl,
    c5_missing_argument_32602 _ _ _ (JVal.num 2) rfl rfl rfl rfl rfl
      (Or.inr rfl)⟩

/-- C6: every response object the server's request handling produces, on
every input line and every branch, carries exactly one of the members
`result` and `error` — never both, never neither. -/
theorem c6_exactly_one_result_or_error (s : String) :
    (hasResult (handle_request_core s).2 = true
      ∧ hasError (handle_request_core s).2 = false)
    ∨ (hasResult (handle_request_core s).2 = false
      ∧ hasError (handle_request_core s).2 = true) := by
  rcases isResp_handle_request_core s with ⟨i, v, h⟩ | ⟨i, c, m, h⟩
  · rw [h]
    exact Or.inl ⟨hasResult_mkResult i v, hasError_mkResult i v⟩
  · rw [h]
    exact Or.inr ⟨hasResult_err i c m, hasError_err i c m⟩

/-- C8: handling a shutdown request returns a response echoing the
request's id with the empty object as result, clears the running flag,
and therefore the read loop emits this response and stops — no further
line of the session is read. -/
theorem c8_shutdown_stops_loop (kvs : List (String × JVal)) (i : JVal)
    (rest : List String)
    (hm : objLookup kvs "method" = some (.str "shutdown"))
    (hid : objLookup kvs "id" = some i) :
    handle_request (jsonEncode (.obj kvs))
      = (false, jsonEncode (mkResult i (.obj [])))
    ∧ runLoop true (jsonEncode (.obj kvs) :: rest)
      = [jsonEncode (mkResult i (.obj []))] := by
  have hc : handle_request_core (jsonEncode (.obj kvs))
      = (false, mkResult i (.obj [])) := by
    rw [handle_request_core_enc, dispatch_shutdown kvs i hm hid]
  have hh : handle_request (jsonEncode (.obj kvs))
      = (false, jsonEncode (mkResult i (.obj []))) := by
    rw [handle_request, hc]
  refine ⟨hh, ?_⟩
  simp [runLoop, hh, runLoop_false]

/-- Witness for C8: a shutdown request with id 9 followed by another
line; only the shutdown response is emitted. -/
theorem c8_witness :
    objLookup [("jsonrpc", JVal.str "2.0"), ("id", JVal.num 9),
        ("method", JVal.str "shutdown"), ("params", JVal.obj [])] "method"
      = some (.str "shutdown")
    ∧ runLoop true [jsonEncode (.obj [("jsonrpc", JVal.str "2.0"),
        ("id", JVal.num 9), ("method", JVal.str "shutdown"),
        ("params", JVal.obj [])]),
        jsonEncode (mkRequest (.num 1) "tools/list" (.obj []))]
      = [jsonEncode (mkResult (.num 9) (.obj []))] :=
  ⟨rfl,
    (c8_shutdown_stops_loop [("jsonrpc", JVal.str "2.0"), ("id", JVal.num 9),
      ("method", JVal.str "shutdown"), ("params", JVal.obj [])] (JVal.num 9)
      [jsonEncode (mkRequest (.num 1) "tools/list" (.obj []))] rfl rfl).2⟩

/-- C10: the server's request handling is total and traps every failure
mode: an undecodable line yields the -32700 parse-error response with
null id; a decoded object without a `method` member yields -32600
echoing `request.get("id")`; a decoded non-object value makes the
handling raise internally and yields a -32603 response with null id; and
on every input whatsoever the result is a well-formed response carrying
exactly one of result/error, so no input line terminates the read
loop. -/
theorem c10_handle_request_total (s : String) :
    (jsonParse s = none →
      handle_request s
        = (true, jsonEncode (create_error_response .null (-32700) "Parse error")))
    ∧ (∀ kvs, jsonParse s = some (.obj kvs) → containsKey kvs "method" = false →
        (handle_request_core s).2
          = create_error_response ((objLookup kvs "id").getD .null) (-32600)
              "Invalid Request")
    ∧ (∀ v, jsonParse s = some v → (∀ kvs, v ≠ .obj kvs) →
        ∃ msg, (handle_request_core s).2
          = create_error_response .null (-32603) ("Internal error: " ++ msg))
    ∧ IsResp (handle_request_core s).2 := by
  refine ⟨?_, ?_, ?_, isResp_handle_request_core s⟩
  · intro hp
    rw [handle_request, handle_request_core, hp]
  · intro kvs hp hnm
    rw [handle_request_core, hp]
    dsimp only []
    rw [dispatch_no_method kvs hnm]
  · intro v hp hno
    obtain ⟨msg, hmsg⟩ := dispatch_non_obj v hno
    refine ⟨msg, ?_⟩
    rw [handle_request_core, hp]
    dsimp only []
    rw [hmsg]

/-- Witness for C10 on three concrete lines: invalid JSON, an object
without a method, and a non-object value. -/
theorem c10_witness :
    handle_request "("
      = (true, jsonEncode (create_error_response .null (-32700) "Parse error"))
    ∧ (handle_request_core (jsonEncode (.obj [("id", JVal.num 1)]))).2
      = create_error_response (.num 1) (-32600) "Invalid Request"
    ∧ ∃ msg, (handle_request_core "5").2
      = create_error_response .null (-32603) ("Internal error: " ++ msg) := by
  refine ⟨(c10_handle_request_total "(").1 rfl, ?_, ?_⟩
  · exact (c10_handle_request_total
      (jsonEncode (.obj [("id", JVal.num 1)]))).2.1 [("id", JVal.num 1)]
      (jsonParse_jsonEncode _) rfl
  · exact (c10_handle_request_total "5").2.2.1 (.num 5) rfl (by intro kvs; simp)

end MCP
